import Mathlib

/-!
Verification of the causality-tracking and conflict-resolution core of
PeerPigeon/PigeonMatch: the `VectorClock` class and the
`CollaborationEngine` class (state synchronization, conflict detection and
resolution).

JavaScript `Map<string, T>` objects are embedded as association lists
`List (String × T)` with unique keys and insertion-order iteration, which
matches `Map`'s iteration contract.  Counters are `Nat` (the wire contract
fixes them as non-negative integers).  Methods that mutate `this` are
embedded as pure functions returning the new value; handlers that can throw
(`Object.entries(undefined)` inside `VectorClock.fromJSON` when a message
has no clock) return `Except String`.
-/

namespace PigeonMatch

/-- `Map.get`: first (and, with unique keys, only) value stored at `k`. -/
def mapGet {β : Type} : List (String × β) → String → Option β
  | [], _ => none
  | p :: rest, k => if p.1 = k then some p.2 else mapGet rest k

/-- `Map.has`: whether some entry has key `k`. -/
def mapHasKey {β : Type} (l : List (String × β)) (k : String) : Bool :=
  l.any fun p => decide (p.1 = k)

/-- `Map.set`: update the entry for `k` in place if present (keeping its
position), otherwise append a new entry, as JavaScript `Map` does. -/
def mapSet {β : Type} (l : List (String × β)) (k : String) (v : β) :
    List (String × β) :=
  if mapHasKey l k then l.map fun p => if p.1 = k then (k, v) else p
  else l ++ [(k, v)]

/-- `Map.delete`: remove the entry for `k`. -/
def mapDelete {β : Type} (l : List (String × β)) (k : String) :
    List (String × β) :=
  l.filter fun p => decide (p.1 ≠ k)

/-- The list of keys, in iteration order. -/
def keysOf {β : Type} (l : List (String × β)) : List String :=
  l.map Prod.fst

theorem mapGet_eq_none_iff {β : Type} (l : List (String × β)) (k : String) :
    mapGet l k = none ↔ k ∉ keysOf l := by
  induction l with
  | nil => simp [mapGet, keysOf]
  | cons p rest ih =>
    by_cases h : p.1 = k <;> simp [mapGet, keysOf, h, ih] <;> tauto

theorem mapHasKey_iff_exists {β : Type} (l : List (String × β)) (k : String) :
    mapHasKey l k = true ↔ ∃ b, mapGet l k = some b := by
  induction l with
  | nil => simp [mapHasKey, mapGet]
  | cons p rest ih =>
    by_cases h : p.1 = k <;> simp [mapHasKey, mapGet, h] at ih ⊢ <;> tauto

theorem mapHasKey_false_get {β : Type} (l : List (String × β)) (k : String)
    (h : mapHasKey l k = false) : mapGet l k = none := by
  cases hg : mapGet l k with
  | none => rfl
  | some b =>
    have : mapHasKey l k = true := (mapHasKey_iff_exists l k).2 ⟨b, hg⟩
    rw [this] at h; cases h

theorem mapGet_replace_self {β : Type} (l : List (String × β)) (k : String)
    (v : β) :
    mapGet (l.map fun p => if p.1 = k then (k, v) else p) k
      = (mapGet l k).map fun _ => v := by
  induction l with
  | nil => rfl
  | cons p rest ih =>
    by_cases h : p.1 = k
    · simp [mapGet, h]
    · simp [mapGet, h, ih]

theorem mapGet_replace_other {β : Type} (l : List (String × β)) (k : String)
    (v : β) (k' : String) (hk : k' ≠ k) :
    mapGet (l.map fun p => if p.1 = k then (k, v) else p) k' = mapGet l k' := by
  induction l with
  | nil => rfl
  | cons p rest ih =>
    by_cases h : p.1 = k
    · have h1 : ¬ (k = k') := fun he => hk he.symm
      have h2 : ¬ (p.1 = k') := by rw [h]; exact h1
      simp [mapGet, h, h1, h2, ih]
    · by_cases h2 : p.1 = k' <;> simp [mapGet, h, h2, hk, ih]

theorem mapGet_append {β : Type} (l₁ l₂ : List (String × β)) (k : String) :
    mapGet (l₁ ++ l₂) k
      = match mapGet l₁ k with
        | some v => some v
        | none => mapGet l₂ k := by
  induction l₁ with
  | nil => simp [mapGet]
  | cons p rest ih =>
    by_cases h : p.1 = k <;> simp [mapGet, h, ih]

theorem mapGet_mapSet {β : Type} (l : List (String × β)) (k : String) (v : β)
    (k' : String) :
    mapGet (mapSet l k v) k' = if k' = k then some v else mapGet l k' := by
  unfold mapSet
  by_cases hk : mapHasKey l k
  · rw [if_pos hk]
    by_cases he : k' = k
    · subst he
      rcases (mapHasKey_iff_exists l k').1 hk with ⟨b, hb⟩
      rw [mapGet_replace_self, hb]; simp
    · rw [mapGet_replace_other l k v k' he, if_neg he]
  · rw [if_neg hk]
    rw [mapGet_append]
    have hnone := mapHasKey_false_get l k (by simpa using hk)
    by_cases he : k' = k
    · subst he; rw [hnone]; simp [mapGet]
    · cases hg : mapGet l k' with
      | some b => simp [he]
      | none =>
        have : ¬ (k = k') := fun h => he h.symm
        simp [mapGet, this, he]

theorem mapGet_mapDelete {β : Type} (l : List (String × β)) (k k' : String) :
    mapGet (mapDelete l k) k' = if k' = k then none else mapGet l k' := by
  induction l with
  | nil => simp [mapDelete, mapGet]
  | cons p rest ih =>
    by_cases h : p.1 = k
    · have hd : mapDelete (p :: rest) k = mapDelete rest k := by
        simp [mapDelete, h]
      rw [hd, ih]
      by_cases he : k' = k
      · simp [he]
      · have h2 : ¬ (p.1 = k') := by rw [h]; exact fun hh => he hh.symm
        simp [he, mapGet, h2]
    · have hd : mapDelete (p :: rest) k = p :: mapDelete rest k := by
        simp [mapDelete, h]
      rw [hd]
      by_cases h2 : p.1 = k'
      · have he : ¬ (k' = k) := by
          rw [← h2]; exact fun hh => h hh
        simp [mapGet, h2, he]
      · simp [mapGet, h2, ih]

theorem keysOf_replace {β : Type} (l : List (String × β)) (k : String) (v : β) :
    keysOf (l.map fun p => if p.1 = k then (k, v) else p) = keysOf l := by
  unfold keysOf
  rw [List.map_map]
  refine List.map_congr_left ?_
  intro a _
  by_cases h : a.1 = k
  · simp [Function.comp, h]
  · simp [Function.comp, h]

theorem keysOf_mapSet {β : Type} (l : List (String × β)) (k : String) (v : β) :
    keysOf (mapSet l k v)
      = if mapHasKey l k then keysOf l else keysOf l ++ [k] := by
  unfold mapSet
  by_cases hk : mapHasKey l k
  · simp [hk, keysOf_replace]
  · simp [hk, keysOf]

theorem nodup_keys_mapSet {β : Type} (l : List (String × β)) (k : String)
    (v : β) (h : (keysOf l).Nodup) : (keysOf (mapSet l k v)).Nodup := by
  rw [keysOf_mapSet]
  by_cases hk : mapHasKey l k
  · simpa [hk] using h
  · have hmem : k ∉ keysOf l := by
      rw [← mapGet_eq_none_iff]
      exact mapHasKey_false_get l k (by simpa using hk)
    have hperm : (keysOf l ++ [k]).Perm (k :: keysOf l) :=
      List.perm_append_singleton k (keysOf l)
    rw [if_neg hk, hperm.nodup_iff]
    exact List.nodup_cons.2 ⟨hmem, h⟩

/-- `VectorClock` (src/VectorClock.ts): a `Map<string, number>` from peer id
to counter. -/
structure VectorClock where
  clock : List (String × Nat)
deriving Repr, DecidableEq

namespace VectorClock

/-- `get(peerId)`: `this.clock.get(peerId) || 0`. -/
def get (c : VectorClock) (peerId : String) : Nat :=
  (mapGet c.clock peerId).getD 0

/-- `set(peerId, timestamp)`: direct assignment. -/
def set (c : VectorClock) (peerId : String) (timestamp : Nat) : VectorClock :=
  ⟨mapSet c.clock peerId timestamp⟩

/-- `increment(peerId)`: `clock.set(peerId, (clock.get(peerId) || 0) + 1)`. -/
def increment (c : VectorClock) (peerId : String) : VectorClock :=
  ⟨mapSet c.clock peerId (((mapGet c.clock peerId).getD 0) + 1)⟩

/-- One iteration of the `merge` loop body:
`this.clock.set(peerId, Math.max(this.clock.get(peerId) || 0, timestamp))`. -/
def mergeStep (acc : List (String × Nat)) (p : String × Nat) :
    List (String × Nat) :=
  mapSet acc p.1 (max ((mapGet acc p.1).getD 0) p.2)

/-- `merge(other)`: fold the loop body over `other`'s entries.  The method
writes only `this.clock`; `other` is just read. -/
def merge (c other : VectorClock) : VectorClock :=
  ⟨other.clock.foldl mergeStep c.clock⟩

/-- State-pair semantics of the call `a.merge(b)`: the method returns nothing
and mutates only `this`, so the pair (this, other) evolves to
(merged this, unchanged other). -/
def mergeCall (a b : VectorClock) : VectorClock × VectorClock :=
  (a.merge b, b)

/-- The `Set([...this.clock.keys(), ...other.clock.keys()])` iterated by
`compare` (as a list; deduplication does not matter for boolean scans). -/
def allPeerIds (c other : VectorClock) : List String :=
  keysOf c.clock ++ keysOf other.clock

/-- `compare`'s `thisGreater` flag: some counter of `this` strictly exceeds
`other`'s. -/
def thisGreaterB (c other : VectorClock) : Bool :=
  (allPeerIds c other).any fun pid => decide (other.get pid < c.get pid)

/-- `compare`'s `otherGreater` flag. -/
def otherGreaterB (c other : VectorClock) : Bool :=
  (allPeerIds c other).any fun pid => decide (c.get pid < other.get pid)

/-- `compare(other)`: 1 (happens after), -1 (happens before) or
0 (concurrent). -/
def compare (c other : VectorClock) : Int :=
  if thisGreaterB c other && !otherGreaterB c other then 1
  else if otherGreaterB c other && !thisGreaterB c other then -1
  else 0

/-- `happensBefore(other)`: `compare(other) === -1`. -/
def happensBefore (c other : VectorClock) : Bool :=
  decide (c.compare other = -1)

/-- `happensAfter(other)`: `compare(other) === 1`. -/
def happensAfter (c other : VectorClock) : Bool :=
  decide (c.compare other = 1)

/-- `isConcurrent(other)`: `compare(other) === 0`. -/
def isConcurrent (c other : VectorClock) : Bool :=
  decide (c.compare other = 0)

/-- `clone()`: `new VectorClock(new Map(this.clock))` — same entries. -/
def clone (c : VectorClock) : VectorClock :=
  ⟨c.clock⟩

/-- `toJSON()`: the entries, in iteration order, as a plain mapping. -/
def toJSON (c : VectorClock) : List (String × Nat) :=
  c.clock

/-- One iteration of `fromJSON`'s loop: `clock.set(peerId, timestamp)`. -/
def fromJSONStep (acc : List (String × Nat)) (p : String × Nat) :
    List (String × Nat) :=
  mapSet acc p.1 p.2

/-- `fromJSON(obj)`: build a fresh map from the object's entries. -/
def fromJSON (obj : List (String × Nat)) : VectorClock :=
  ⟨obj.foldl fromJSONStep []⟩

/-- `getPeerIds()`. -/
def getPeerIds (c : VectorClock) : List String :=
  keysOf c.clock

/-- `size()`. -/
def size (c : VectorClock) : Nat :=
  c.clock.length

theorem clone_eq (c : VectorClock) : c.clone = c := by
  cases c; rfl

theorem foldl_mergeStep_get_notMem (os : List (String × Nat))
    (acc : List (String × Nat)) (k : String) (hk : k ∉ keysOf os) :
    mapGet (os.foldl mergeStep acc) k = mapGet acc k := by
  induction os generalizing acc with
  | nil => rfl
  | cons p rest ih =>
    have hk1 : k ≠ p.1 := by
      intro h; exact hk (by simp [keysOf, h])
    have hk2 : k ∉ keysOf rest := fun h => hk (by simp [keysOf] at h ⊢; tauto)
    rw [List.foldl_cons, ih (mergeStep acc p) hk2]
    unfold mergeStep
    rw [mapGet_mapSet]
    simp [hk1]

theorem getD_mapSet_le (acc : List (String × Nat)) (j k : String) (v : Nat)
    (hv : (mapGet acc j).getD 0 ≤ v) :
    (mapGet acc k).getD 0 ≤ (mapGet (mapSet acc j v) k).getD 0 := by
  rw [mapGet_mapSet]
  by_cases he : k = j
  · subst he; simpa using hv
  · simp [he]

theorem foldl_mergeStep_get_le (os : List (String × Nat))
    (acc : List (String × Nat)) (k : String) :
    (mapGet acc k).getD 0 ≤ (mapGet (os.foldl mergeStep acc) k).getD 0 := by
  induction os generalizing acc with
  | nil => simp
  | cons p rest ih =>
    rw [List.foldl_cons]
    refine le_trans ?_ (ih (mergeStep acc p))
    exact getD_mapSet_le acc p.1 k _ (le_max_left _ _)

theorem foldl_mergeStep_get_mem (os : List (String × Nat))
    (acc : List (String × Nat)) (k : String)
    (hnd : (keysOf os).Nodup) (hk : k ∈ keysOf os) :
    (mapGet (os.foldl mergeStep acc) k).getD 0
      = max ((mapGet acc k).getD 0) ((mapGet os k).getD 0) := by
  induction os generalizing acc with
  | nil => cases hk
  | cons p rest ih =>
    have hcons : keysOf (p :: rest) = p.1 :: keysOf rest := rfl
    rw [hcons, List.nodup_cons] at hnd
    rw [List.foldl_cons]
    by_cases he : k = p.1
    · subst he
      rw [foldl_mergeStep_get_notMem rest (mergeStep acc p) p.1 hnd.1]
      unfold mergeStep
      rw [mapGet_mapSet]
      simp [mapGet]
    · have hk2 : k ∈ keysOf rest := by
        rw [hcons, List.mem_cons] at hk
        rcases hk with h | h
        · exact absurd h he
        · exact h
      rw [ih (mergeStep acc p) hnd.2 hk2]
      unfold mergeStep
      rw [mapGet_mapSet]
      have h1 : ¬ (p.1 = k) := fun h => he h.symm
      simp [he, mapGet, h1]

theorem merge_get (c other : VectorClock) (h : (keysOf other.clock).Nodup)
    (k : String) :
    (c.merge other).get k
      = if k ∈ keysOf other.clock then max (c.get k) (other.get k)
        else c.get k := by
  unfold merge get
  by_cases hk : k ∈ keysOf other.clock
  · rw [if_pos hk]
    exact foldl_mergeStep_get_mem other.clock c.clock k h hk
  · rw [if_neg hk]
    rw [foldl_mergeStep_get_notMem other.clock c.clock k hk]

theorem merge_get_left_le (c other : VectorClock) (k : String) :
    c.get k ≤ (c.merge other).get k :=
  foldl_mergeStep_get_le other.clock c.clock k

theorem merge_get_right_le (c other : VectorClock)
    (h : (keysOf other.clock).Nodup) (k : String) :
    other.get k ≤ (c.merge other).get k := by
  rw [merge_get c other h k]
  by_cases hk : k ∈ keysOf other.clock
  · simp [hk]
  · have : mapGet other.clock k = none := (mapGet_eq_none_iff _ _).2 hk
    simp [hk, get, this]

theorem fromJSON_nodup_keys (obj : List (String × Nat)) :
    (keysOf (fromJSON obj).clock).Nodup := by
  unfold fromJSON
  suffices h : ∀ acc : List (String × Nat), (keysOf acc).Nodup →
      (keysOf (obj.foldl fromJSONStep acc)).Nodup by
    exact h [] (by simp [keysOf])
  induction obj with
  | nil => intro acc hacc; exact hacc
  | cons p rest ih =>
    intro acc hacc
    rw [List.foldl_cons]
    exact ih (fromJSONStep acc p) (nodup_keys_mapSet acc p.1 p.2 hacc)

theorem greaterB_swap (a b : VectorClock) :
    thisGreaterB a b = otherGreaterB b a := by
  unfold thisGreaterB otherGreaterB allPeerIds
  rw [List.any_append, List.any_append, Bool.or_comm]

theorem compare_swap (a b : VectorClock) :
    a.compare b = 1 ↔ b.compare a = -1 := by
  have h1 : thisGreaterB b a = otherGreaterB a b := greaterB_swap b a
  have h2 : otherGreaterB b a = thisGreaterB a b := (greaterB_swap a b).symm
  unfold compare
  rw [h1, h2]
  cases hx : thisGreaterB a b <;> cases hy : otherGreaterB a b <;> simp

theorem compare_cases (a b : VectorClock) :
    a.compare b = 1 ∨ a.compare b = -1 ∨ a.compare b = 0 := by
  unfold compare
  split
  · exact Or.inl rfl
  · split
    · exact Or.inr (Or.inl rfl)
    · exact Or.inr (Or.inr rfl)

theorem compare_self_eq (a b : VectorClock) (h : ∀ k, a.get k = b.get k) :
    a.compare b = 0 := by
  have hx : thisGreaterB a b = false := by
    unfold thisGreaterB
    rw [List.any_eq_false]
    intro pid _
    simp [h pid]
  have hy : otherGreaterB a b = false := by
    unfold otherGreaterB
    rw [List.any_eq_false]
    intro pid _
    simp [h pid]
  unfold compare
  rw [hx, hy]
  simp

theorem foldl_fromJSONStep_append (obj acc : List (String × Nat))
    (h : (keysOf acc ++ keysOf obj).Nodup) :
    obj.foldl fromJSONStep acc = acc ++ obj := by
  induction obj generalizing acc with
  | nil => simp
  | cons p rest ih =>
    have hcons : keysOf (p :: rest) = p.1 :: keysOf rest := rfl
    have hnotin : p.1 ∉ keysOf acc := by
      rw [hcons, List.nodup_append] at h
      intro hmem
      exact h.2.2 hmem (List.mem_cons_self p.1 (keysOf rest))
    have hnokey : mapHasKey acc p.1 = false := by
      cases hb : mapHasKey acc p.1
      · rfl
      · exfalso
        rcases (mapHasKey_iff_exists acc p.1).1 hb with ⟨v, hv⟩
        have hnone : mapGet acc p.1 = none :=
          (mapGet_eq_none_iff acc p.1).2 hnotin
        rw [hnone] at hv
        cases hv
    rw [List.foldl_cons]
    have hstep : fromJSONStep acc p = acc ++ [p] := by
      unfold fromJSONStep mapSet
      rw [hnokey]
      simp
    rw [hstep, ih (acc ++ [p])]
    · simp
    · have hkeys : keysOf (acc ++ [p]) = keysOf acc ++ [p.1] := by
        unfold keysOf; simp
      rw [hkeys, List.append_assoc]
      simpa [hcons] using h

theorem fromJSON_toJSON (c : VectorClock) (h : (keysOf c.clock).Nodup) :
    fromJSON (toJSON c) = c := by
  unfold fromJSON toJSON
  rw [foldl_fromJSONStep_append c.clock [] (by simpa [keysOf] using h)]
  simp

end VectorClock

-- `MessageType` (src/types.ts): a TypeScript string enum; at runtime the
-- `type` field of a message is a plain string.
namespace MessageType

def STATE_UPDATE : String := "state:update"

def STATE_REQUEST : String := "state:request"

def STATE_RESPONSE : String := "state:response"

def VECTOR_CLOCK_SYNC : String := "vector:sync"

def PEER_HEARTBEAT : String := "peer:heartbeat"

end MessageType

/-- `PeerMessage` (src/types.ts).  `vectorClock` is `Option`al: the wire can
omit it even though the TypeScript type declares it, which is the malformed
case the spec discusses.  `α` is the opaque payload type. -/
structure PeerMessage (α : Type) where
  type : String
  from_ : String
  to_ : Option String
  payload : α
  vectorClock : Option (List (String × Nat))
  timestamp : Int

/-- `Peer` (src/types.ts), restricted to the fields the engine reads. -/
structure Peer where
  id : String
  vectorClock : Option VectorClock
  joinedAt : Option Int

/-- One candidate entry of `StateConflict.states`. -/
structure ConflictState (α : Type) where
  peerId : String
  state : α
  vectorClock : VectorClock

/-- `StateConflict` (src/types.ts). -/
structure StateConflict (α : Type) where
  states : List (ConflictState α)
  detectedAt : Int

/-- `ConflictResolution` (src/types.ts); `strategy` is the string enum value
of the strategy used. -/
structure ConflictResolution (α : Type) where
  resolvedState : α
  vectorClock : VectorClock
  strategy : String
  resolvedAt : Int

/-- The events the `CollaborationEngine` emits (the `CollaborationEvent`
string enum of src/types.ts plus the `message:send` outbound-send event),
together with their payloads. -/
inductive EmittedEvent (α : Type) where
  | stateUpdated (peerId : String) (state : α) (vectorClock : VectorClock)
  | conflictDetected (conflict : StateConflict α)
  | conflictResolved (res : ConflictResolution α)
  | syncRequested
  | syncCompleted
  | messageSend (msg : PeerMessage α)

/-- `CollaborationConfig` (src/types.ts): optional fields are `Option`. -/
structure CollaborationConfig where
  peerId : String
  nspace : Option String
  conflictResolution : Option String
  syncInterval : Option Nat

/-- `Required<CollaborationConfig>` as resolved by the constructor. -/
structure ResolvedConfig where
  peerId : String
  nspace : String
  conflictResolution : String
  syncInterval : Nat

/-- `NetworkNamespace` (src/NetworkNamespace.ts): a namespace identifier
plus a peer map (the known-peer set) and a metadata map, both starting
empty.  The peer values are `any` in the source; the engine only ever
stores `Peer` objects there, and only ever stores timestamps in the
metadata map. -/
structure NetworkNamespace where
  nspaceName : String
  peers : List (String × Peer)
  metadata : List (String × Int)

namespace NetworkNamespace

/-- `getNamespace()`. -/
def getNamespace (ns : NetworkNamespace) : String :=
  ns.nspaceName

/-- `addPeer(peerId, peer)`: `this.peers.set(peerId, peer)`. -/
def addPeer (ns : NetworkNamespace) (peerId : String) (peer : Peer) :
    NetworkNamespace :=
  { ns with peers := mapSet ns.peers peerId peer }

/-- `removePeer(peerId)`: `return this.peers.delete(peerId)` — the new
state together with the boolean `Map.delete` returns (true iff the key was
present). -/
def removePeer (ns : NetworkNamespace) (peerId : String) :
    NetworkNamespace × Bool :=
  ({ ns with peers := mapDelete ns.peers peerId }, mapHasKey ns.peers peerId)

/-- `getPeer(peerId)`. -/
def getPeer (ns : NetworkNamespace) (peerId : String) : Option Peer :=
  mapGet ns.peers peerId

/-- `hasPeer(peerId)`. -/
def hasPeer (ns : NetworkNamespace) (peerId : String) : Bool :=
  mapHasKey ns.peers peerId

/-- `getPeerIds()`. -/
def getPeerIds (ns : NetworkNamespace) : List String :=
  keysOf ns.peers

/-- `setMetadata(key, value)`: `this.metadata.set(key, value)`. -/
def setMetadata (ns : NetworkNamespace) (key : String) (value : Int) :
    NetworkNamespace :=
  { ns with metadata := mapSet ns.metadata key value }

end NetworkNamespace

/-- `NamespaceManager` (src/NetworkNamespace.ts): a map from namespace name
to `NetworkNamespace`. -/
structure NamespaceManager where
  namespaces : List (String × NetworkNamespace)

/-- `getOrCreateNamespace(namespace)`: create the namespace on first use
(`new NetworkNamespace(namespace)` starts with empty maps), then return
it. -/
def NamespaceManager.getOrCreateNamespace (m : NamespaceManager)
    (nm : String) : NamespaceManager × NetworkNamespace :=
  match mapGet m.namespaces nm with
  | some ns => (m, ns)
  | none =>
    let ns : NetworkNamespace := ⟨nm, [], []⟩
    ({ namespaces := mapSet m.namespaces nm ns }, ns)

/-- `CollaborationEngine` state (src/CollaborationEngine.ts).  `α` is the
opaque application-state/payload type. -/
structure CollaborationEngine (α : Type) where
  config : ResolvedConfig
  localClock : VectorClock
  peerClocks : List (String × VectorClock)
  localState : α
  peerStates : List (String × α)
  nspace : NetworkNamespace

namespace CollaborationEngine

variable {α : Type}

/-- The `x || default` JavaScript idiom for an optional string field:
`undefined` and the empty string are falsy. -/
def defaultStr (o : Option String) (d : String) : String :=
  match o with
  | some s => if s = "" then d else s
  | none => d

/-- The constructor (src/CollaborationEngine.ts lines 29-48): resolves the
config with `||` defaults, starts from an empty clock, empty maps and an
empty state blob, and obtains its namespace from a freshly constructed
`NamespaceManager` via `getOrCreateNamespace`.  It performs no validation
and never throws. -/
def create [Inhabited α] (config : CollaborationConfig) :
    CollaborationEngine α :=
  { config :=
      { peerId := config.peerId
        nspace := defaultStr config.nspace "default"
        conflictResolution :=
          defaultStr config.conflictResolution "vector_clock"
        syncInterval :=
          match config.syncInterval with
          | some n => if n = 0 then 5000 else n
          | none => 5000 }
    localClock := ⟨[]⟩
    peerClocks := []
    localState := default
    peerStates := []
    nspace :=
      ((NamespaceManager.mk []).getOrCreateNamespace
        (defaultStr config.nspace "default")).2 }

/-- `getState()` returns a shallow copy of the local state blob. -/
def getState (s : CollaborationEngine α) : α :=
  s.localState

/-- `getPeerState(peerId)`. -/
def getPeerState (s : CollaborationEngine α) (peerId : String) : Option α :=
  mapGet s.peerStates peerId

/-- `resolveByVectorClock` (lines 261-278): scan the candidates, replacing
the running winner whenever a later candidate's clock `happensAfter` the
winner's; adopt the winner's state and a clone of its clock.  On an empty
candidate list the JavaScript code would fault reading `undefined.state`,
embedded as `none`. -/
def resolveByVectorClock (conflict : StateConflict α) (now : Int) :
    Option (ConflictResolution α) :=
  match conflict.states with
  | [] => none
  | first :: rest =>
    let winningState := rest.foldl
      (fun w cur =>
        if cur.vectorClock.happensAfter w.vectorClock then cur else w) first
    some { resolvedState := winningState.state
           vectorClock := winningState.vectorClock.clone
           strategy := "vector_clock"
           resolvedAt := now }

/-- Inner loop body of `resolveByLastWrite`: track the maximal counter seen
anywhere and the candidate that contributed it. -/
def lwwStep (st : ConflictState α) (acc : ConflictState α × Nat)
    (pid : String) : ConflictState α × Nat :=
  if acc.2 < st.vectorClock.get pid then (st, st.vectorClock.get pid) else acc

/-- Outer loop body of `resolveByLastWrite`: scan every peer id of one
candidate's clock. -/
def lwwScanClock (acc : ConflictState α × Nat) (st : ConflictState α) :
    ConflictState α × Nat :=
  st.vectorClock.getPeerIds.foldl (lwwStep st) acc

/-- `resolveByLastWrite` (lines 283-305): the candidate contributing the
single highest counter value across every entry of every candidate clock
wins (first candidate when nothing exceeds the initial maximum 0). -/
def resolveByLastWrite (conflict : StateConflict α) (now : Int) :
    Option (ConflictResolution α) :=
  match conflict.states with
  | [] => none
  | first :: _ =>
    let winningState := (conflict.states.foldl lwwScanClock (first, 0)).1
    some { resolvedState := winningState.state
           vectorClock := winningState.vectorClock.clone
           strategy := "last_write_wins"
           resolvedAt := now }

/-- `resolveConflict` (lines 237-256): dispatch on the configured strategy
string; anything other than the two implemented strategies falls into the
`default` branch, which is vector-clock resolution.  The resolved state and
clock overwrite the local ones. -/
def resolveConflict (s : CollaborationEngine α) (conflict : StateConflict α)
    (now : Int) : Option (CollaborationEngine α × ConflictResolution α) :=
  let res :=
    if s.config.conflictResolution = "vector_clock" then
      resolveByVectorClock conflict now
    else if s.config.conflictResolution = "last_write_wins" then
      resolveByLastWrite conflict now
    else
      resolveByVectorClock conflict now
  res.map fun r =>
    ({ s with localState := r.resolvedState, localClock := r.vectorClock }, r)

/-- `handleStateUpdate` (lines 145-185): decode the clock (throws when the
field is missing), store it as P's clock, merge it into the local clock,
then either detect-and-resolve a conflict (stored clock exists and is
concurrent with the new one) or accept the payload as P's snapshot.  A
`state:updated` event is emitted either way. -/
def handleStateUpdate (s : CollaborationEngine α) (msg : PeerMessage α)
    (now : Int) :
    Except String (CollaborationEngine α × List (EmittedEvent α)) :=
  match msg.vectorClock with
  | none => .error "TypeError: Cannot convert undefined or null to object"
  | some j =>
    let peerClock := VectorClock.fromJSON j
    let existingClock := mapGet s.peerClocks msg.from_
    let s1 : CollaborationEngine α :=
      { s with
        peerClocks := mapSet s.peerClocks msg.from_ peerClock
        localClock := s.localClock.merge peerClock }
    match existingClock with
    | some old =>
      if old.isConcurrent peerClock then
        let conflict : StateConflict α :=
          { states :=
              [ ⟨msg.from_, msg.payload, peerClock⟩,
                ⟨s.config.peerId, s1.localState, s1.localClock⟩ ]
            detectedAt := now }
        match resolveConflict s1 conflict now with
        | some (s2, res) =>
          .ok (s2,
            [ .conflictDetected conflict, .conflictResolved res,
              .stateUpdated msg.from_ msg.payload peerClock ])
        | none => .error "TypeError: Cannot read properties of undefined"
      else
        .ok ({ s1 with
                peerStates := mapSet s1.peerStates msg.from_ msg.payload },
          [ .stateUpdated msg.from_ msg.payload peerClock ])
    | none =>
      .ok ({ s1 with
              peerStates := mapSet s1.peerStates msg.from_ msg.payload },
        [ .stateUpdated msg.from_ msg.payload peerClock ])

/-- `handleStateRequest` (lines 190-201): reply with a `STATE_RESPONSE`
carrying the local state and clock; no engine state changes. -/
def handleStateRequest (s : CollaborationEngine α) (msg : PeerMessage α)
    (now : Int) :
    Except String (CollaborationEngine α × List (EmittedEvent α)) :=
  .ok (s,
    [ .messageSend
        { type := MessageType.STATE_RESPONSE
          from_ := s.config.peerId
          to_ := some msg.from_
          payload := s.localState
          vectorClock := some s.localClock.toJSON
          timestamp := now } ])

/-- `handleStateResponse` (lines 206-208): identical handling to
`handleStateUpdate`. -/
def handleStateResponse (s : CollaborationEngine α) (msg : PeerMessage α)
    (now : Int) :
    Except String (CollaborationEngine α × List (EmittedEvent α)) :=
  handleStateUpdate s msg now

/-- `handleVectorClockSync` (lines 213-217): decode (can throw), merge into
the local clock and replace P's stored clock; no events. -/
def handleVectorClockSync (s : CollaborationEngine α) (msg : PeerMessage α)
    (now : Int) :
    Except String (CollaborationEngine α × List (EmittedEvent α)) :=
  match msg.vectorClock with
  | none => .error "TypeError: Cannot convert undefined or null to object"
  | some j =>
    let peerClock := VectorClock.fromJSON j
    .ok ({ s with
            localClock := s.localClock.merge peerClock
            peerClocks := mapSet s.peerClocks msg.from_ peerClock }, [])

/-- `handlePeerHeartbeat` (lines 222-225): record the sender's last-seen
time in the namespace metadata; no events. -/
def handlePeerHeartbeat (s : CollaborationEngine α) (msg : PeerMessage α)
    (now : Int) :
    Except String (CollaborationEngine α × List (EmittedEvent α)) :=
  .ok ({ s with
          nspace := s.nspace.setMetadata (msg.from_ ++ ":lastSeen") now },
    [])

/-- `handleMessage` (lines 135-140): look up the handler registered for the
message's type; a message whose type matches none of the five registered
types is ignored. -/
def handleMessage (s : CollaborationEngine α) (msg : PeerMessage α)
    (now : Int) :
    Except String (CollaborationEngine α × List (EmittedEvent α)) :=
  if msg.type = MessageType.STATE_UPDATE then handleStateUpdate s msg now
  else if msg.type = MessageType.STATE_REQUEST then
    handleStateRequest s msg now
  else if msg.type = MessageType.STATE_RESPONSE then
    handleStateResponse s msg now
  else if msg.type = MessageType.VECTOR_CLOCK_SYNC then
    handleVectorClockSync s msg now
  else if msg.type = MessageType.PEER_HEARTBEAT then
    handlePeerHeartbeat s msg now
  else .ok (s, [])

/-- `addPeer` (lines 351-356): insert the peer into the namespace's peer map
and, when it carries an initial clock, seed `peerClocks`.  No event is
emitted. -/
def addPeer (s : CollaborationEngine α) (peer : Peer) :
    CollaborationEngine α × List (EmittedEvent α) :=
  ({ s with
      nspace := s.nspace.addPeer peer.id peer
      peerClocks :=
        match peer.vectorClock with
        | some vc => mapSet s.peerClocks peer.id vc
        | none => s.peerClocks }, [])

/-- `removePeer` (lines 361-365): erase the peer from the namespace's peer
map (the boolean `Map.delete` returns is ignored), from `peerClocks` and
from `peerStates`.  No event is emitted. -/
def removePeer (s : CollaborationEngine α) (peerId : String) :
    CollaborationEngine α × List (EmittedEvent α) :=
  ({ s with
      nspace := (s.nspace.removePeer peerId).1
      peerClocks := mapDelete s.peerClocks peerId
      peerStates := mapDelete s.peerStates peerId }, [])

theorem handleMessage_state_bearing (s : CollaborationEngine α)
    (msg : PeerMessage α) (now : Int)
    (h : msg.type = MessageType.STATE_UPDATE ∨
         msg.type = MessageType.STATE_RESPONSE) :
    handleMessage s msg now = handleStateUpdate s msg now := by
  rcases h with h | h
  · unfold handleMessage
    rw [if_pos h]
  · unfold handleMessage handleStateResponse
    rw [if_neg (by rw [h]; decide), if_neg (by rw [h]; decide), if_pos h]

theorem resolveByVectorClock_two (c1 c2 : ConflictState α) (d now : Int) :
    ∃ w, (w = c1 ∨ w = c2) ∧
      resolveByVectorClock ⟨[c1, c2], d⟩ now
        = some { resolvedState := w.state
                 vectorClock := w.vectorClock.clone
                 strategy := "vector_clock"
                 resolvedAt := now } ∧
      w = (if c2.vectorClock.happensAfter c1.vectorClock then c2 else c1) := by
  by_cases h : c2.vectorClock.happensAfter c1.vectorClock
  · exact ⟨c2, Or.inr rfl, by simp [resolveByVectorClock, h], by simp [h]⟩
  · exact ⟨c1, Or.inl rfl, by simp [resolveByVectorClock, h], by simp [h]⟩

theorem lwwStep_fold_fst (st : ConflictState α) (pids : List String)
    (acc : ConflictState α × Nat) :
    ((pids.foldl (lwwStep st) acc).1 = acc.1) ∨
      ((pids.foldl (lwwStep st) acc).1 = st) := by
  induction pids generalizing acc with
  | nil => exact Or.inl rfl
  | cons pid rest ih =>
    rw [List.foldl_cons]
    by_cases hc : acc.2 < st.vectorClock.get pid
    · have hstep : lwwStep st acc pid = (st, st.vectorClock.get pid) := by
        unfold lwwStep
        rw [if_pos hc]
      rw [hstep]
      rcases ih (st, st.vectorClock.get pid) with h | h
      · exact Or.inr h
      · exact Or.inr h
    · have hstep : lwwStep st acc pid = acc := by
        unfold lwwStep
        rw [if_neg hc]
      rw [hstep]
      exact ih acc

theorem lwwScan_fold_fst (states : List (ConflictState α))
    (acc : ConflictState α × Nat) :
    ((states.foldl lwwScanClock acc).1 = acc.1) ∨
      ((states.foldl lwwScanClock acc).1 ∈ states) := by
  induction states generalizing acc with
  | nil => exact Or.inl rfl
  | cons st rest ih =>
    rw [List.foldl_cons]
    -- the inner scan either kept the running winner or switched to `st`
    rcases lwwStep_fold_fst st st.vectorClock.getPeerIds acc with h2 | h2
    · rcases ih (lwwScanClock acc st) with h | h
      · exact Or.inl (h.trans h2)
      · exact Or.inr (List.mem_cons_of_mem st h)
    · rcases ih (lwwScanClock acc st) with h | h
      · right
        have hw : (List.foldl lwwScanClock (lwwScanClock acc st) rest).1 = st :=
          h.trans h2
        rw [hw]
        exact List.mem_cons_self st rest
      · exact Or.inr (List.mem_cons_of_mem st h)

theorem resolveByLastWrite_two (c1 c2 : ConflictState α) (d now : Int) :
    ∃ w, (w = c1 ∨ w = c2) ∧
      resolveByLastWrite ⟨[c1, c2], d⟩ now
        = some { resolvedState := w.state
                 vectorClock := w.vectorClock.clone
                 strategy := "last_write_wins"
                 resolvedAt := now } := by
  rcases lwwScan_fold_fst [c1, c2] (c1, 0) with h | h
  · exact ⟨_, Or.inl h, by simp [resolveByLastWrite]⟩
  · rcases List.mem_pair.mp h with h2 | h2
    · exact ⟨_, Or.inl h2, by simp [resolveByLastWrite]⟩
    · exact ⟨_, Or.inr h2, by simp [resolveByLastWrite]⟩

theorem resolveConflict_two (s : CollaborationEngine α)
    (c1 c2 : ConflictState α) (d now : Int) :
    ∃ s2 r, resolveConflict s ⟨[c1, c2], d⟩ now = some (s2, r) ∧
      (r.vectorClock = c1.vectorClock ∨ r.vectorClock = c2.vectorClock) ∧
      s2.localClock = r.vectorClock ∧
      s2.localState = r.resolvedState ∧
      s2.peerClocks = s.peerClocks ∧
      s2.peerStates = s.peerStates ∧
      s2.config = s.config ∧
      s2.nspace = s.nspace := by
  unfold resolveConflict
  by_cases h1 : s.config.conflictResolution = "vector_clock"
  · rcases resolveByVectorClock_two c1 c2 d now with ⟨w, hw, heq, _⟩
    rw [if_pos h1, heq]
    refine ⟨_, _, rfl, ?_, rfl, rfl, rfl, rfl, rfl, rfl⟩
    rw [VectorClock.clone_eq]
    rcases hw with h | h
    · exact Or.inl (by rw [h])
    · exact Or.inr (by rw [h])
  · by_cases h2 : s.config.conflictResolution = "last_write_wins"
    · rcases resolveByLastWrite_two c1 c2 d now with ⟨w, hw, heq⟩
      rw [if_neg h1, if_pos h2, heq]
      refine ⟨_, _, rfl, ?_, rfl, rfl, rfl, rfl, rfl, rfl⟩
      rw [VectorClock.clone_eq]
      rcases hw with h | h
      · exact Or.inl (by rw [h])
      · exact Or.inr (by rw [h])
    · rcases resolveByVectorClock_two c1 c2 d now with ⟨w, hw, heq, _⟩
      rw [if_neg h1, if_neg h2, heq]
      refine ⟨_, _, rfl, ?_, rfl, rfl, rfl, rfl, rfl, rfl⟩
      rw [VectorClock.clone_eq]
      rcases hw with h | h
      · exact Or.inl (by rw [h])
      · exact Or.inr (by rw [h])

theorem handleStateUpdate_accept (s : CollaborationEngine α)
    (msg : PeerMessage α) (now : Int) (j : List (String × Nat))
    (hj : msg.vectorClock = some j)
    (hnc : ∀ old, mapGet s.peerClocks msg.from_ = some old →
      old.isConcurrent (VectorClock.fromJSON j) = false) :
    handleStateUpdate s msg now
      = .ok ({ s with
                peerClocks :=
                  mapSet s.peerClocks msg.from_ (VectorClock.fromJSON j)
                localClock := s.localClock.merge (VectorClock.fromJSON j)
                peerStates := mapSet s.peerStates msg.from_ msg.payload },
          [ .stateUpdated msg.from_ msg.payload (VectorClock.fromJSON j) ]) := by
  unfold handleStateUpdate
  rw [hj]
  cases hex : mapGet s.peerClocks msg.from_ with
  | none => rfl
  | some old =>
    have := hnc old hex
    simp [this]

theorem handleStateUpdate_conflict (s : CollaborationEngine α)
    (msg : PeerMessage α) (now : Int) (j : List (String × Nat))
    (old : VectorClock)
    (hj : msg.vectorClock = some j)
    (hold : mapGet s.peerClocks msg.from_ = some old)
    (hcc : old.isConcurrent (VectorClock.fromJSON j) = true) :
    ∃ s2 r,
      handleStateUpdate s msg now
        = .ok (s2,
            [ .conflictDetected
                { states :=
                    [ ⟨msg.from_, msg.payload, VectorClock.fromJSON j⟩,
                      ⟨s.config.peerId, s.localState,
                        s.localClock.merge (VectorClock.fromJSON j)⟩ ]
                  detectedAt := now },
              .conflictResolved r,
              .stateUpdated msg.from_ msg.payload (VectorClock.fromJSON j) ]) ∧
      (r.vectorClock = VectorClock.fromJSON j ∨
        r.vectorClock = s.localClock.merge (VectorClock.fromJSON j)) ∧
      s2.localClock = r.vectorClock ∧
      s2.peerClocks = mapSet s.peerClocks msg.from_ (VectorClock.fromJSON j) ∧
      s2.peerStates = s.peerStates := by
  rcases resolveConflict_two
      { s with
        peerClocks := mapSet s.peerClocks msg.from_ (VectorClock.fromJSON j)
        localClock := s.localClock.merge (VectorClock.fromJSON j) }
      ⟨msg.from_, msg.payload, VectorClock.fromJSON j⟩
      ⟨s.config.peerId, s.localState,
        s.localClock.merge (VectorClock.fromJSON j)⟩ now now
    with ⟨s2, r, heq, hvc, hlc, -, hpc, hps, -, -⟩
  refine ⟨s2, r, ?_, hvc, hlc, hpc, hps⟩
  unfold handleStateUpdate
  rw [hj, hold]
  simp only [hcc, if_true, heq]

end CollaborationEngine

/-- A sample clock `{p1: 2}` used to evaluate theorems on concrete data. -/
def clockA : VectorClock := ⟨[("p1", 2)]⟩

/-- A sample clock `{p1: 1, p2: 1}`, concurrent with `clockA`. -/
def clockB : VectorClock := ⟨[("p1", 1), ("p2", 1)]⟩

/-- A sample engine built by the constructor with an all-default config. -/
def sampleEngine : CollaborationEngine Nat :=
  CollaborationEngine.create
    { peerId := "local", nspace := none, conflictResolution := none
      syncInterval := none }

/-- C4: for all clocks A and B exactly one of happensBefore, happensAfter
and isConcurrent holds; compare(A,B) = AFTER iff compare(B,A) = BEFORE; and
clocks with identical counters (absent keys read as 0) compare as
CONCURRENT, never as an ordering verdict. -/
theorem C4_compare_trichotomy (a b : VectorClock) :
    ((a.happensBefore b = true ∧ a.happensAfter b = false ∧
        a.isConcurrent b = false) ∨
     (a.happensBefore b = false ∧ a.happensAfter b = true ∧
        a.isConcurrent b = false) ∨
     (a.happensBefore b = false ∧ a.happensAfter b = false ∧
        a.isConcurrent b = true)) ∧
    (a.compare b = 1 ↔ b.compare a = -1) ∧
    ((∀ k, a.get k = b.get k) → a.isConcurrent b = true) := by
  refine ⟨?_, VectorClock.compare_swap a b, ?_⟩
  · rcases VectorClock.compare_cases a b with h | h | h
    · refine Or.inr (Or.inl ?_)
      simp [VectorClock.happensBefore, VectorClock.happensAfter,
        VectorClock.isConcurrent, h]
    · refine Or.inl ?_
      simp [VectorClock.happensBefore, VectorClock.happensAfter,
        VectorClock.isConcurrent, h]
    · refine Or.inr (Or.inr ?_)
      simp [VectorClock.happensBefore, VectorClock.happensAfter,
        VectorClock.isConcurrent, h]
  · intro h
    simp [VectorClock.isConcurrent, VectorClock.compare_self_eq a b h]

/-- Witness for C4 at the concrete pair (clockA, clockA): the
identical-clocks hypothesis is discharged definitionally and the verdict is
CONCURRENT. -/
theorem C4_compare_trichotomy_witness :
    clockA.isConcurrent clockA = true :=
  (C4_compare_trichotomy clockA clockA).2.2 fun _ => rfl

/-- C5: after merge, ids present in B hold max(old A counter, B counter),
ids absent from B keep their old A entry untouched, no counter of A
decreases, and the argument B is left unmodified by the call. -/
theorem C5_merge_spec (a b : VectorClock) (hb : (keysOf b.clock).Nodup) :
    (∀ k, k ∈ keysOf b.clock →
        (a.merge b).get k = max (a.get k) (b.get k)) ∧
    (∀ k, k ∉ keysOf b.clock →
        mapGet (a.merge b).clock k = mapGet a.clock k) ∧
    (∀ k, a.get k ≤ (a.merge b).get k) ∧
    (VectorClock.mergeCall a b).2 = b := by
  refine ⟨?_, ?_, VectorClock.merge_get_left_le a b, rfl⟩
  · intro k hk
    rw [VectorClock.merge_get a b hb k, if_pos hk]
  · intro k hk
    exact VectorClock.foldl_mergeStep_get_notMem b.clock a.clock k hk

/-- Witness for C5 at the concrete pair (clockA, clockB): the max rule holds
on the shared id "p1". -/
theorem C5_merge_spec_witness :
    (clockA.merge clockB).get "p1" = max (clockA.get "p1") (clockB.get "p1") :=
  (C5_merge_spec clockA clockB (by decide)).1 "p1" (by decide)

/-- C8: serializing a clock and deserializing it again restores a clock with
exactly the same id-to-counter entries (a `Map` always has pairwise distinct
keys, which is the stated well-formedness hypothesis). -/
theorem C8_roundtrip (c : VectorClock) (h : (keysOf c.clock).Nodup) :
    VectorClock.fromJSON (VectorClock.toJSON c) = c :=
  VectorClock.fromJSON_toJSON c h

/-- Witness for C8 at the concrete clock clockB. -/
theorem C8_roundtrip_witness :
    VectorClock.fromJSON (VectorClock.toJSON clockB) = clockB :=
  C8_roundtrip clockB (by decide)

/-- C6: on a two-candidate conflict record [remote, local], clock-dominant
resolution picks a candidate whose clock does not happen-before the other
candidate's clock, a tie (concurrent clocks) goes to the first candidate,
and the winner's state together with a clone of its clock becomes the
resolution. -/
theorem C6_clock_dominant_resolution {α : Type} (s1 s2 : ConflictState α)
    (d now : Int) :
    ∃ r, CollaborationEngine.resolveByVectorClock ⟨[s1, s2], d⟩ now
        = some r ∧
      r.strategy = "vector_clock" ∧
      ((r.resolvedState = s2.state ∧ r.vectorClock = s2.vectorClock.clone ∧
          s2.vectorClock.happensBefore s1.vectorClock = false) ∨
       (r.resolvedState = s1.state ∧ r.vectorClock = s1.vectorClock.clone ∧
          s1.vectorClock.happensBefore s2.vectorClock = false)) ∧
      (s1.vectorClock.isConcurrent s2.vectorClock = true →
        r.resolvedState = s1.state ∧ r.vectorClock = s1.vectorClock.clone) := by
  rcases CollaborationEngine.resolveByVectorClock_two s1 s2 d now
    with ⟨w, hw, heq, hdef⟩
  refine ⟨_, heq, rfl, ?_, ?_⟩
  · by_cases h : s2.vectorClock.happensAfter s1.vectorClock
    · rw [if_pos h] at hdef
      refine Or.inl ⟨by rw [hdef], by rw [hdef], ?_⟩
      have h1 : s2.vectorClock.compare s1.vectorClock = 1 := by
        simpa [VectorClock.happensAfter] using h
      simp [VectorClock.happensBefore, h1]
    · rw [if_neg h] at hdef
      refine Or.inr ⟨by rw [hdef], by rw [hdef], ?_⟩
      have h1 : ¬ (s2.vectorClock.compare s1.vectorClock = 1) := by
        simpa [VectorClock.happensAfter] using h
      have h2 : ¬ (s1.vectorClock.compare s2.vectorClock = -1) := fun hc =>
        h1 ((VectorClock.compare_swap s2.vectorClock s1.vectorClock).2 hc)
      simp [VectorClock.happensBefore, h2]
  · intro hconc
    have h0 : s1.vectorClock.compare s2.vectorClock = 0 := by
      simpa [VectorClock.isConcurrent] using hconc
    have h1 : ¬ (s2.vectorClock.compare s1.vectorClock = 1) := by
      intro hx
      have hm :=
        (VectorClock.compare_swap s2.vectorClock s1.vectorClock).1 hx
      rw [h0] at hm
      exact absurd hm (by decide)
    have hna : s2.vectorClock.happensAfter s1.vectorClock = false := by
      simp [VectorClock.happensAfter, h1]
    rw [hna] at hdef
    simp at hdef
    exact ⟨by rw [hdef], by rw [hdef]⟩

/-- Witness for C6 on a concrete two-candidate conflict with concurrent
clocks (clockA, clockB): the tie-break picks the first (remote) candidate's
state. -/
theorem C6_clock_dominant_resolution_witness :
    ∃ r, CollaborationEngine.resolveByVectorClock
        (⟨[⟨"p1", (1 : Nat), clockA⟩, ⟨"local", 2, clockB⟩], 0⟩ :
          StateConflict Nat) 0 = some r ∧
      r.resolvedState = 1 := by
  rcases C6_clock_dominant_resolution (⟨"p1", (1 : Nat), clockA⟩ :
      ConflictState Nat) ⟨"local", 2, clockB⟩ 0 0 with ⟨r, h1, _, _, h4⟩
  have hc : clockA.isConcurrent clockB = true := by decide
  exact ⟨r, h1, (h4 hc).1⟩

/-- C1: for a state-bearing message (STATE_UPDATE or STATE_RESPONSE) from P
with clock C_new: when no clock is stored for P the update is accepted with
no conflict event and P's clock and snapshot are stored; a ConflictDetected
event (followed by resolution) occurs exactly when a stored clock C_old
exists with isConcurrent(C_old, C_new); and removePeer(P) erases the stored
clock, making the next message first contact again. -/
theorem C1_conflict_detection {α : Type} (s : CollaborationEngine α)
    (msg : PeerMessage α) (now : Int) (j : List (String × Nat))
    (htype : msg.type = MessageType.STATE_UPDATE ∨
      msg.type = MessageType.STATE_RESPONSE)
    (hclock : msg.vectorClock = some j) :
    ∃ s' evts, CollaborationEngine.handleMessage s msg now = .ok (s', evts) ∧
      (mapGet s.peerClocks msg.from_ = none →
        (∀ c, EmittedEvent.conflictDetected c ∉ evts) ∧
        mapGet s'.peerClocks msg.from_ = some (VectorClock.fromJSON j) ∧
        mapGet s'.peerStates msg.from_ = some msg.payload) ∧
      ((∃ c, EmittedEvent.conflictDetected c ∈ evts) ↔
        (∃ old, mapGet s.peerClocks msg.from_ = some old ∧
          old.isConcurrent (VectorClock.fromJSON j) = true)) ∧
      (∀ old, mapGet s.peerClocks msg.from_ = some old →
        old.isConcurrent (VectorClock.fromJSON j) = true →
        ∃ c r, evts =
          [ EmittedEvent.conflictDetected c, EmittedEvent.conflictResolved r,
            EmittedEvent.stateUpdated msg.from_ msg.payload
              (VectorClock.fromJSON j) ]) ∧
      mapGet (s.removePeer msg.from_).1.peerClocks msg.from_ = none := by
  rw [CollaborationEngine.handleMessage_state_bearing s msg now htype]
  have hrem : mapGet (s.removePeer msg.from_).1.peerClocks msg.from_
      = none := by
    unfold CollaborationEngine.removePeer
    rw [mapGet_mapDelete]
    simp
  cases hex : mapGet s.peerClocks msg.from_ with
  | none =>
    rw [CollaborationEngine.handleStateUpdate_accept s msg now j hclock
      (by intro old h; rw [hex] at h; cases h)]
    refine ⟨_, _, rfl, ?_, ?_, ?_, hrem⟩
    · intro _
      refine ⟨?_, ?_, ?_⟩
      · intro c hc
        simp at hc
      · rw [mapGet_mapSet]
        simp
      · rw [mapGet_mapSet]
        simp
    · constructor
      · rintro ⟨c, hc⟩
        simp at hc
      · rintro ⟨old, hold, -⟩
        cases hold
    · intro old hold
      cases hold
  | some old =>
    by_cases hcc : old.isConcurrent (VectorClock.fromJSON j) = true
    · rcases CollaborationEngine.handleStateUpdate_conflict s msg now j old
        hclock hex hcc with ⟨s2, r, heq, -, -, hpc, -⟩
      rw [heq]
      refine ⟨_, _, rfl, ?_, ?_, ?_, hrem⟩
      · intro h0
        cases h0
      · constructor
        · intro _
          exact ⟨old, rfl, hcc⟩
        · intro _
          exact ⟨_, List.mem_cons_self _ _⟩
      · intro old2 hold2 _
        exact ⟨_, r, rfl⟩
    · have hcc' : old.isConcurrent (VectorClock.fromJSON j) = false := by
        cases h : old.isConcurrent (VectorClock.fromJSON j)
        · rfl
        · exact absurd h hcc
      have hnc : ∀ old2, mapGet s.peerClocks msg.from_ = some old2 →
          old2.isConcurrent (VectorClock.fromJSON j) = false := by
        intro old2 h2
        rw [hex] at h2
        injection h2 with h2
        rw [← h2]
        exact hcc'
      rw [CollaborationEngine.handleStateUpdate_accept s msg now j hclock hnc]
      refine ⟨_, _, rfl, ?_, ?_, ?_, hrem⟩
      · intro h0
        cases h0
      · constructor
        · rintro ⟨c, hc⟩
          simp at hc
        · rintro ⟨old2, hold2, hconc2⟩
          injection hold2 with hold2
          rw [← hold2] at hconc2
          rw [hcc'] at hconc2
          cases hconc2
      · intro old2 hold2 hconc2
        injection hold2 with hold2
        rw [← hold2] at hconc2
        rw [hcc'] at hconc2
        cases hconc2

/-- Witness for C1 on concrete data: a STATE_UPDATE from a never-seen peer
is accepted by `sampleEngine` with its payload stored as the peer snapshot
and no conflict event. -/
theorem C1_conflict_detection_witness :
    ∃ (s' : CollaborationEngine Nat) (evts : List (EmittedEvent Nat)),
      CollaborationEngine.handleMessage sampleEngine
        { type := "state:update", from_ := "p1", to_ := none, payload := 7,
          vectorClock := some [("p1", 1)], timestamp := 0 } 0
        = .ok (s', evts) ∧
      (∀ c, EmittedEvent.conflictDetected c ∉ evts) ∧
      mapGet s'.peerStates "p1" = some 7 := by
  rcases C1_conflict_detection sampleEngine
      { type := "state:update", from_ := "p1", to_ := none, payload := 7,
        vectorClock := some [("p1", 1)], timestamp := 0 } 0 [("p1", 1)]
      (Or.inl rfl) rfl with ⟨s', evts, hok, hfirst, -, -, -⟩
  rcases hfirst rfl with ⟨hnoc, -, hst⟩
  exact ⟨s', evts, hok, hnoc, hst⟩

/-- C9: after the engine processes a state-bearing message carrying clock C,
the local clock is componentwise at least C — on the direct-accept branch
via the merge, and on the conflict branch because the adopted clock is
either C itself or the already-merged local clock, under every resolution
strategy. -/
theorem C9_local_clock_dominates_message {α : Type}
    (s : CollaborationEngine α) (msg : PeerMessage α) (now : Int)
    (j : List (String × Nat))
    (htype : msg.type = MessageType.STATE_UPDATE ∨
      msg.type = MessageType.STATE_RESPONSE)
    (hclock : msg.vectorClock = some j) :
    ∃ s' evts, CollaborationEngine.handleMessage s msg now = .ok (s', evts) ∧
      ∀ k, (VectorClock.fromJSON j).get k ≤ s'.localClock.get k := by
  rw [CollaborationEngine.handleMessage_state_bearing s msg now htype]
  have hnd := VectorClock.fromJSON_nodup_keys j
  cases hex : mapGet s.peerClocks msg.from_ with
  | none =>
    rw [CollaborationEngine.handleStateUpdate_accept s msg now j hclock
      (by intro old h; rw [hex] at h; cases h)]
    exact ⟨_, _, rfl,
      fun k => VectorClock.merge_get_right_le s.localClock _ hnd k⟩
  | some old =>
    by_cases hcc : old.isConcurrent (VectorClock.fromJSON j) = true
    · rcases CollaborationEngine.handleStateUpdate_conflict s msg now j old
        hclock hex hcc with ⟨s2, r, heq, hvc, hlc, -, -⟩
      rw [heq]
      refine ⟨_, _, rfl, fun k => ?_⟩
      rw [hlc]
      rcases hvc with h | h
      · rw [h]
      · rw [h]
        exact VectorClock.merge_get_right_le s.localClock _ hnd k
    · have hcc' : old.isConcurrent (VectorClock.fromJSON j) = false := by
        cases h : old.isConcurrent (VectorClock.fromJSON j)
        · rfl
        · exact absurd h hcc
      have hnc : ∀ old2, mapGet s.peerClocks msg.from_ = some old2 →
          old2.isConcurrent (VectorClock.fromJSON j) = false := by
        intro old2 h2
        rw [hex] at h2
        injection h2 with h2
        rw [← h2]
        exact hcc'
      rw [CollaborationEngine.handleStateUpdate_accept s msg now j hclock hnc]
      exact ⟨_, _, rfl,
        fun k => VectorClock.merge_get_right_le s.localClock _ hnd k⟩

/-- Witness for C9 on concrete data: after `sampleEngine` handles a
STATE_UPDATE carrying `{p1: 3}`, the local clock dominates that clock at
"p1". -/
theorem C9_local_clock_dominates_message_witness :
    ∃ (s' : CollaborationEngine Nat) (evts : List (EmittedEvent Nat)),
      CollaborationEngine.handleMessage sampleEngine
        { type := "state:update", from_ := "p1", to_ := none, payload := 7,
          vectorClock := some [("p1", 3)], timestamp := 0 } 0
        = .ok (s', evts) ∧
      (VectorClock.fromJSON [("p1", 3)]).get "p1" ≤ s'.localClock.get "p1" := by
  rcases C9_local_clock_dominates_message sampleEngine
      { type := "state:update", from_ := "p1", to_ := none, payload := 7,
        vectorClock := some [("p1", 3)], timestamp := 0 } 0 [("p1", 3)]
      (Or.inl rfl) rfl with ⟨s', evts, hok, hle⟩
  exact ⟨s', evts, hok, hle "p1"⟩

/-- C10: when a state-bearing message from P triggers a conflict (stored
clock exists and is concurrent with the new clock), the stored snapshot for
P is left unchanged: getPeerState(P) afterwards returns what it returned
before the message. -/
theorem C10_conflict_preserves_snapshot {α : Type}
    (s : CollaborationEngine α) (msg : PeerMessage α) (now : Int)
    (j : List (String × Nat)) (old : VectorClock)
    (htype : msg.type = MessageType.STATE_UPDATE ∨
      msg.type = MessageType.STATE_RESPONSE)
    (hclock : msg.vectorClock = some j)
    (hold : mapGet s.peerClocks msg.from_ = some old)
    (hcc : old.isConcurrent (VectorClock.fromJSON j) = true) :
    ∃ s' evts, CollaborationEngine.handleMessage s msg now = .ok (s', evts) ∧
      s'.getPeerState msg.from_ = s.getPeerState msg.from_ := by
  rw [CollaborationEngine.handleMessage_state_bearing s msg now htype]
  rcases CollaborationEngine.handleStateUpdate_conflict s msg now j old
    hclock hold hcc with ⟨s2, r, heq, -, -, -, hps⟩
  rw [heq]
  refine ⟨_, _, rfl, ?_⟩
  unfold CollaborationEngine.getPeerState
  rw [hps]

/-- An engine that already stores clock `{p1: 2}` and snapshot 7 for peer
"p1", so that a message from "p1" with a concurrent clock conflicts. -/
def conflictedEngine : CollaborationEngine Nat :=
  { config :=
      { peerId := "local", nspace := "default"
        conflictResolution := "vector_clock", syncInterval := 5000 }
    localClock := clockA
    peerClocks := [("p1", clockA)]
    localState := 0
    peerStates := [("p1", 7)]
    nspace := ⟨"default", [], []⟩ }

/-- Witness for C10 on concrete data: a conflicting STATE_UPDATE from "p1"
leaves `getPeerState "p1"` unchanged on `conflictedEngine`. -/
theorem C10_conflict_preserves_snapshot_witness :
    ∃ (s' : CollaborationEngine Nat) (evts : List (EmittedEvent Nat)),
      CollaborationEngine.handleMessage conflictedEngine
        { type := "state:update", from_ := "p1", to_ := none, payload := 9,
          vectorClock := some [("p2", 1)], timestamp := 0 } 0
        = .ok (s', evts) ∧
      s'.getPeerState "p1" = conflictedEngine.getPeerState "p1" :=
  C10_conflict_preserves_snapshot conflictedEngine
    { type := "state:update", from_ := "p1", to_ := none, payload := 9,
      vectorClock := some [("p2", 1)], timestamp := 0 } 0 [("p2", 1)] clockA
    (Or.inl rfl) rfl (by decide) (by decide)

/-- Counterexample to C2: a STATE_UPDATE whose clock field is missing is
not dropped silently — `VectorClock.fromJSON` is applied to the absent
field (`Object.entries(undefined)`) and the handler throws. -/
theorem C2_missing_clock_counterexample :
    CollaborationEngine.handleMessage sampleEngine
      { type := "state:update", from_ := "p1", to_ := none, payload := 7,
        vectorClock := none, timestamp := 0 } 0
      = Except.error "TypeError: Cannot convert undefined or null to object" :=
  rfl

/-- C2 as amended: a message with an unknown type is dropped silently (no
throw, no event, engine state unchanged), but a missing clock is never
checked at the dispatch boundary — a state-bearing message without a clock
reaches its handler and throws while decoding. -/
theorem C2_dispatch_amended {α : Type} (s : CollaborationEngine α)
    (msg : PeerMessage α) (now : Int) :
    (msg.type ≠ MessageType.STATE_UPDATE →
     msg.type ≠ MessageType.STATE_REQUEST →
     msg.type ≠ MessageType.STATE_RESPONSE →
     msg.type ≠ MessageType.VECTOR_CLOCK_SYNC →
     msg.type ≠ MessageType.PEER_HEARTBEAT →
       CollaborationEngine.handleMessage s msg now = .ok (s, [])) ∧
    (msg.vectorClock = none →
      (msg.type = MessageType.STATE_UPDATE ∨
        msg.type = MessageType.STATE_RESPONSE) →
      CollaborationEngine.handleMessage s msg now
        = Except.error
            "TypeError: Cannot convert undefined or null to object") := by
  constructor
  · intro h1 h2 h3 h4 h5
    unfold CollaborationEngine.handleMessage
    rw [if_neg h1, if_neg h2, if_neg h3, if_neg h4, if_neg h5]
  · intro hnone htype
    rw [CollaborationEngine.handleMessage_state_bearing s msg now htype]
    unfold CollaborationEngine.handleStateUpdate
    rw [hnone]

/-- Witness for amended C2: a message of unrecognized type "bogus" is
ignored by `sampleEngine`, with state unchanged and no events. -/
theorem C2_dispatch_amended_witness :
    CollaborationEngine.handleMessage sampleEngine
      { type := "bogus", from_ := "p1", to_ := none, payload := 0,
        vectorClock := some [], timestamp := 0 } 0
      = .ok (sampleEngine, []) :=
  (C2_dispatch_amended sampleEngine
      { type := "bogus", from_ := "p1", to_ := none, payload := 0,
        vectorClock := some [], timestamp := 0 } 0).1
    (by decide) (by decide) (by decide) (by decide) (by decide)

/-- An engine constructed with the unimplemented strategy selection
"custom". -/
def customEngine : CollaborationEngine Nat :=
  CollaborationEngine.create
    { peerId := "local", nspace := none, conflictResolution := some "custom"
      syncInterval := none }

/-- A concrete two-candidate conflict used to exercise conflict
resolution. -/
def sampleConflict : StateConflict Nat :=
  { states := [⟨"p1", 1, ⟨[("p1", 1)]⟩⟩, ⟨"local", 2, ⟨[("local", 1)]⟩⟩]
    detectedAt := 0 }

/-- Counterexample to C3: constructing an engine with the invalid strategy
selection "custom" does not fail — the value is stored as-is — and the
invalid strategy does reach conflict-resolution time, where the `default`
switch branch silently resolves by vector clock. -/
theorem C3_invalid_strategy_counterexample :
    customEngine.config.conflictResolution = "custom" ∧
    ∃ pr, CollaborationEngine.resolveConflict customEngine sampleConflict 0
        = some pr ∧
      pr.2.strategy = "vector_clock" :=
  ⟨rfl, ⟨_, rfl, rfl⟩⟩

/-- C3 as amended: engine construction performs no validation of the
conflict-resolution selection — any non-empty string (including "custom")
is accepted and stored verbatim — and at conflict-resolution time any
strategy other than the two implemented ones falls back to vector-clock
resolution. -/
theorem C3_no_validation_amended {α : Type} [Inhabited α]
    (cfg : CollaborationConfig) (str : String) (hs : str ≠ "")
    (s : CollaborationEngine α) (conflict : StateConflict α) (now : Int)
    (h1 : s.config.conflictResolution ≠ "vector_clock")
    (h2 : s.config.conflictResolution ≠ "last_write_wins") :
    (CollaborationEngine.create { cfg with conflictResolution := some str } :
        CollaborationEngine α).config.conflictResolution = str ∧
    CollaborationEngine.resolveConflict s conflict now
      = (CollaborationEngine.resolveByVectorClock conflict now).map
          fun r =>
            ({ s with
                localState := r.resolvedState
                localClock := r.vectorClock }, r) := by
  constructor
  · unfold CollaborationEngine.create CollaborationEngine.defaultStr
    simp [hs]
  · unfold CollaborationEngine.resolveConflict
    rw [if_neg h1, if_neg h2]

/-- Witness for amended C3 at the concrete engine `customEngine`: "custom"
is stored verbatim and resolution falls back to vector clock. -/
theorem C3_no_validation_amended_witness :
    (CollaborationEngine.create
        { peerId := "local", nspace := none,
          conflictResolution := some "custom", syncInterval := none } :
        CollaborationEngine Nat).config.conflictResolution = "custom" ∧
    CollaborationEngine.resolveConflict customEngine sampleConflict 0
      = (CollaborationEngine.resolveByVectorClock sampleConflict 0).map
          fun r =>
            ({ customEngine with
                localState := r.resolvedState
                localClock := r.vectorClock }, r) :=
  C3_no_validation_amended
    { peerId := "local", nspace := none, conflictResolution := some "custom"
      syncInterval := none }
    "custom" (by decide) customEngine sampleConflict 0 (by decide) (by decide)

/-- A sample peer carrying an initial clock. -/
def samplePeer : Peer :=
  { id := "p1", vectorClock := some ⟨[("p1", 1)]⟩, joinedAt := none }

/-- Counterexample to C7: neither addPeer nor removePeer of the
collaboration engine emits any event at all — in particular no PeerJoined
and no PeerLeft (the CollaborationEvent enum does not even define them). -/
theorem C7_no_peer_events_counterexample :
    (CollaborationEngine.addPeer sampleEngine samplePeer).2 = [] ∧
    (CollaborationEngine.removePeer sampleEngine "p1").2 = [] :=
  ⟨rfl, rfl⟩

/-- C7 as amended: addPeer(P) inserts P into the namespace's peer map and
seeds the stored clock when P carries one, but emits no event; removePeer(P)
erases P from the namespace peer map, the peer-clock map and the
peer-snapshot map, but emits no event. -/
theorem C7_peer_bookkeeping_amended {α : Type} (s : CollaborationEngine α)
    (peer : Peer) (pid : String) :
    mapGet (s.addPeer peer).1.nspace.peers peer.id = some peer ∧
    (∀ vc, peer.vectorClock = some vc →
      mapGet (s.addPeer peer).1.peerClocks peer.id = some vc) ∧
    (peer.vectorClock = none →
      (s.addPeer peer).1.peerClocks = s.peerClocks) ∧
    (s.addPeer peer).2 = [] ∧
    mapGet (s.removePeer pid).1.nspace.peers pid = none ∧
    mapGet (s.removePeer pid).1.peerClocks pid = none ∧
    mapGet (s.removePeer pid).1.peerStates pid = none ∧
    (s.removePeer pid).2 = [] := by
  refine ⟨?_, ?_, ?_, rfl, ?_, ?_, ?_, rfl⟩
  · unfold CollaborationEngine.addPeer NetworkNamespace.addPeer
    rw [mapGet_mapSet]
    simp
  · intro vc hvc
    unfold CollaborationEngine.addPeer
    rw [hvc]
    rw [mapGet_mapSet]
    simp
  · intro hvc
    unfold CollaborationEngine.addPeer
    rw [hvc]
  · unfold CollaborationEngine.removePeer NetworkNamespace.removePeer
    rw [mapGet_mapDelete]
    simp
  · unfold CollaborationEngine.removePeer
    rw [mapGet_mapDelete]
    simp
  · unfold CollaborationEngine.removePeer
    rw [mapGet_mapDelete]
    simp

/-- Witness for amended C7 at concrete data: adding `samplePeer` to
`sampleEngine` seeds its clock in the peer-clock map. -/
theorem C7_peer_bookkeeping_amended_witness :
    mapGet (CollaborationEngine.addPeer sampleEngine samplePeer).1.peerClocks
      "p1" = some ⟨[("p1", 1)]⟩ :=
  (C7_peer_bookkeeping_amended sampleEngine samplePeer "p1").2.1
    ⟨[("p1", 1)]⟩ rfl

end PigeonMatch
